import Mathlib

/-!
Verification of src/utils/mps_compat.py (MPS compatibility utilities).

The module wraps four torch linear-algebra operations (matmul, einsum, bmm, mm)
with a dispatch that reroutes the computation through the CPU whenever the
first operand lives on an MPS device and some operand has dtype complex64 or
complex128.

Embedding notes:
- A tensor is modelled as a record of its device, its dtype and an abstract
  payload of values (Val).  Shapes are folded into the payload.
- The numerical content of the four torch operations is irrelevant to every
  property of the module, so it is kept parametric: a Kernel record carries
  one pure function per operation, and all theorems are proved for every
  kernel.  Witness theorems instantiate a concrete kernel K0.
- The torch operations themselves are modelled with their device-generic
  semantics: operands must share a device (torch raises a runtime error on a
  device mismatch), the result is produced on that common device, and the
  payload is the kernel applied to the operand payloads.  Per-backend kernel
  gaps (MPS lacking complex arithmetic) are deliberately NOT modelled: the
  spec treats the native operation as the mathematical operation the wrapper
  must reproduce, and the MPS gap is exactly the capability the module works
  around.
- Fallible calls return Except TorchErr; ValueError carries its message.
- A second, store-passing model of the same functions (suffix S) makes
  allocation explicit, to state the frame property (no input mutation,
  fresh result tensor).
-/

/-- A torch.device: a backend type string (such as "mps", "cpu", "cuda") and
an optional device index. -/
structure Device where
  type : String
  index : Option Nat
deriving DecidableEq

/-- The torch dtypes relevant to this module.  torch.complex32 (chalf) exists
in torch alongside complex64 and complex128. -/
inductive Dtype where
  | float16 | float32 | float64
  | complex32 | complex64 | complex128
  | int64 | boolT
deriving DecidableEq

/-- torch.dtype.is_complex: the dtypes whose values are complex numbers. -/
def Dtype.isComplex : Dtype → Bool
  | .complex32 => true
  | .complex64 => true
  | .complex128 => true
  | _ => false

/-- Abstract tensor payload: a flat list of complex entries (re, im). -/
abbrev Val := List (Int × Int)

/-- A torch.Tensor: device, dtype and payload. -/
structure Tensor where
  device : Device
  dtype : Dtype
  data : Val
deriving DecidableEq

/-- The CPU device. -/
def cpuDevice : Device := ⟨"cpu", none⟩

/-- Tensor.cpu(): same values and dtype, moved to the CPU device. -/
def Tensor.cpu (t : Tensor) : Tensor := { t with device := cpuDevice }

/-- Tensor.to(device): same values and dtype on the given device. -/
def Tensor.to (t : Tensor) (d : Device) : Tensor := { t with device := d }

/-- Errors a call can raise: a Python ValueError with its message, a torch
device-mismatch runtime error, or another torch runtime error. -/
inductive TorchErr where
  | valueError (msg : String)
  | deviceMismatch
  | runtimeError
deriving DecidableEq

/-- Parametric numerical content of the four native torch operations.  Every
theorem below holds for every kernel: nothing in the module depends on what
the operations compute. -/
structure Kernel where
  matmul : Val → Val → Val
  bmm : Val → Val → Val
  mm : Val → Val → Val
  einsum : String → List Val → Val
deriving Inhabited

/-- Rank used for torch dtype promotion of results. -/
def Dtype.rank : Dtype → Nat
  | .boolT => 0
  | .int64 => 1
  | .float16 => 2
  | .float32 => 3
  | .float64 => 4
  | .complex32 => 5
  | .complex64 => 6
  | .complex128 => 7

/-- Promotion of two dtypes: the higher-ranked one. -/
def promoteDtype (a b : Dtype) : Dtype := if b.rank ≤ a.rank then a else b

/-- Promotion over a nonempty list of dtypes (float32 for the empty list). -/
def promoteList : List Dtype → Dtype
  | [] => Dtype.float32
  | d :: rest => rest.foldl promoteDtype d

/-- Source lines 21-38: _needs_cpu_fallback(device, *tensors).  Returns False
unless device.type == "mps"; otherwise scans the tensors for dtype
complex64 or complex128. -/
def _needs_cpu_fallback (device : Device) (tensors : List Tensor) : Bool :=
  if device.type ≠ "mps" then
    false
  else
    tensors.any fun t => decide (t.dtype ∈ [Dtype.complex64, Dtype.complex128])

/-- Native torch.matmul: operands must share a device, the result lives on
that device with the promoted dtype and the kernel-computed payload. -/
def torchMatmul (K : Kernel) (a b : Tensor) : Except TorchErr Tensor :=
  if a.device = b.device then
    .ok ⟨a.device, promoteDtype a.dtype b.dtype, K.matmul a.data b.data⟩
  else
    .error .deviceMismatch

/-- Native torch.bmm: same device semantics as torch.matmul. -/
def torchBmm (K : Kernel) (a b : Tensor) : Except TorchErr Tensor :=
  if a.device = b.device then
    .ok ⟨a.device, promoteDtype a.dtype b.dtype, K.bmm a.data b.data⟩
  else
    .error .deviceMismatch

/-- Native torch.mm: same device semantics as torch.matmul. -/
def torchMm (K : Kernel) (a b : Tensor) : Except TorchErr Tensor :=
  if a.device = b.device then
    .ok ⟨a.device, promoteDtype a.dtype b.dtype, K.mm a.data b.data⟩
  else
    .error .deviceMismatch

/-- Native torch.einsum: all operands must share the first operand's device;
a call with no operands is a torch runtime error. -/
def torchEinsum (K : Kernel) (equation : String) (operands : List Tensor) :
    Except TorchErr Tensor :=
  match operands with
  | [] => .error .runtimeError
  | o :: rest =>
    if rest.all fun t => decide (t.device = o.device) then
      .ok ⟨o.device, promoteList ((o :: rest).map Tensor.dtype),
           K.einsum equation ((o :: rest).map Tensor.data)⟩
    else
      .error .deviceMismatch

/-- Source lines 41-58: mps_matmul(a, b). -/
def mps_matmul (K : Kernel) (a b : Tensor) : Except TorchErr Tensor :=
  if _needs_cpu_fallback a.device [a, b] then
    let device := a.device
    (torchMatmul K a.cpu b.cpu).map fun r => r.to device
  else
    torchMatmul K a b

/-- Source lines 61-83: mps_einsum(equation, *operands). -/
def mps_einsum (K : Kernel) (equation : String) (operands : List Tensor) :
    Except TorchErr Tensor :=
  match operands with
  | [] => .error (.valueError "No operands provided to mps_einsum")
  | o :: rest =>
    if _needs_cpu_fallback o.device (o :: rest) then
      let device := o.device
      (torchEinsum K equation ((o :: rest).map Tensor.cpu)).map fun r => r.to device
    else
      torchEinsum K equation (o :: rest)

/-- Source lines 86-103: mps_bmm(a, b). -/
def mps_bmm (K : Kernel) (a b : Tensor) : Except TorchErr Tensor :=
  if _needs_cpu_fallback a.device [a, b] then
    let device := a.device
    (torchBmm K a.cpu b.cpu).map fun r => r.to device
  else
    torchBmm K a b

/-- Source lines 106-123: mps_mm(a, b). -/
def mps_mm (K : Kernel) (a b : Tensor) : Except TorchErr Tensor :=
  if _needs_cpu_fallback a.device [a, b] then
    let device := a.device
    (torchMm K a.cpu b.cpu).map fun r => r.to device
  else
    torchMm K a b

/-- Source line 127: contract is an alias of mps_einsum. -/
def contract : Kernel → String → List Tensor → Except TorchErr Tensor :=
  mps_einsum

/-! Concrete fixtures used by witness and counterexample theorems. -/

/-- The MPS device. -/
def mpsDevice : Device := ⟨"mps", none⟩

/-- A complex64 tensor on the MPS device. -/
def tA : Tensor := ⟨mpsDevice, Dtype.complex64, [(1, 0)]⟩

/-- A second complex64 tensor on the MPS device. -/
def tB : Tensor := ⟨mpsDevice, Dtype.complex64, [(0, 1)]⟩

/-- A complex64 tensor on the CPU device. -/
def tCpu : Tensor := ⟨cpuDevice, Dtype.complex64, [(2, 3)]⟩

/-- A complex32 tensor on the MPS device. -/
def tC32 : Tensor := ⟨mpsDevice, Dtype.complex32, [(1, 1)]⟩

/-- A real float32 tensor on a CUDA device. -/
def tCuda : Tensor := ⟨⟨"cuda", some 0⟩, Dtype.float32, [(5, 0)]⟩

/-- A concrete kernel used by witnesses; its choice is immaterial, every
theorem is proved for every kernel. -/
def K0 : Kernel :=
  ⟨fun a b => a ++ b, fun a b => a ++ b, fun a b => a ++ b,
   fun _ ops => ops.foldr (· ++ ·) []⟩

/-! Helper lemmas, shared by several claim theorems. -/

/-- The dispatch predicate characterised as a proposition. -/
lemma needs_cpu_fallback_iff (device : Device) (tensors : List Tensor) :
    _needs_cpu_fallback device tensors = true ↔
      device.type = "mps" ∧
        ∃ t ∈ tensors, t.dtype = Dtype.complex64 ∨ t.dtype = Dtype.complex128 := by
  unfold _needs_cpu_fallback
  by_cases h : device.type = "mps"
  · simp [h, List.any_eq_true]
  · simp [h]

/-- The complex-dtype scan looks only at the dtypes of the tensors. -/
lemma any_complex_of_map_dtype (ts ts' : List Tensor)
    (hdt : ts.map Tensor.dtype = ts'.map Tensor.dtype) :
    (ts.any fun t => decide (t.dtype ∈ [Dtype.complex64, Dtype.complex128])) =
      (ts'.any fun t => decide (t.dtype ∈ [Dtype.complex64, Dtype.complex128])) := by
  induction ts generalizing ts' with
  | nil =>
    cases ts' with
    | nil => rfl
    | cons b bs => simp at hdt
  | cons a as ih =>
    cases ts' with
    | nil => simp at hdt
    | cons b bs =>
      simp only [List.map_cons, List.cons.injEq] at hdt
      simp only [List.any_cons, hdt.1, ih bs hdt.2]

/-- The dispatch predicate is a function only of the device type and of the
operand dtypes. -/
lemma needs_cpu_fallback_congr (d d' : Device) (ts ts' : List Tensor)
    (htype : d.type = d'.type) (hdt : ts.map Tensor.dtype = ts'.map Tensor.dtype) :
    _needs_cpu_fallback d ts = _needs_cpu_fallback d' ts' := by
  simp only [_needs_cpu_fallback, htype]
  by_cases h : d'.type = "mps"
  · simp only [h, any_complex_of_map_dtype ts ts' hdt]
  · simp [h]

/-- A device whose type is not "mps" never triggers the fallback. -/
lemma needs_cpu_fallback_false_of_not_mps (d : Device) (ts : List Tensor)
    (h : d.type ≠ "mps") : _needs_cpu_fallback d ts = false := by
  simp [_needs_cpu_fallback, h]

/-- Native matmul on a common device. -/
lemma torchMatmul_same_device (K : Kernel) (a b : Tensor) (h : a.device = b.device) :
    torchMatmul K a b =
      .ok ⟨a.device, promoteDtype a.dtype b.dtype, K.matmul a.data b.data⟩ := by
  simp [torchMatmul, h]

/-- Native bmm on a common device. -/
lemma torchBmm_same_device (K : Kernel) (a b : Tensor) (h : a.device = b.device) :
    torchBmm K a b =
      .ok ⟨a.device, promoteDtype a.dtype b.dtype, K.bmm a.data b.data⟩ := by
  simp [torchBmm, h]

/-- Native mm on a common device. -/
lemma torchMm_same_device (K : Kernel) (a b : Tensor) (h : a.device = b.device) :
    torchMm K a b =
      .ok ⟨a.device, promoteDtype a.dtype b.dtype, K.mm a.data b.data⟩ := by
  simp [torchMm, h]

/-- Native einsum when every operand shares the first operand's device. -/
lemma torchEinsum_same_device (K : Kernel) (equation : String) (o : Tensor)
    (rest : List Tensor) (h : ∀ t ∈ rest, t.device = o.device) :
    torchEinsum K equation (o :: rest) =
      .ok ⟨o.device, promoteList ((o :: rest).map Tensor.dtype),
           K.einsum equation ((o :: rest).map Tensor.data)⟩ := by
  have hall : (rest.all fun t => decide (t.device = o.device)) = true := by
    simp [List.all_eq_true]
    exact h
  simp [torchEinsum, hall]

/-- Moving a tensor to the CPU keeps its dtype. -/
lemma cpu_dtype (t : Tensor) : (Tensor.cpu t).dtype = t.dtype := rfl

/-- The fallback branch of mps_matmul produces the CPU-computed result moved
back to the first operand's device. -/
lemma mps_matmul_fallback (K : Kernel) (a b : Tensor)
    (h : _needs_cpu_fallback a.device [a, b] = true) :
    mps_matmul K a b =
      .ok ⟨a.device, promoteDtype a.dtype b.dtype, K.matmul a.data b.data⟩ := by
  have hc : (Tensor.cpu a).device = (Tensor.cpu b).device := rfl
  have hb : mps_matmul K a b = (torchMatmul K a.cpu b.cpu).map fun r => r.to a.device := by
    simp [mps_matmul, h]
  rw [hb, torchMatmul_same_device K a.cpu b.cpu hc]
  rfl

/-- The fallback branch of mps_bmm. -/
lemma mps_bmm_fallback (K : Kernel) (a b : Tensor)
    (h : _needs_cpu_fallback a.device [a, b] = true) :
    mps_bmm K a b =
      .ok ⟨a.device, promoteDtype a.dtype b.dtype, K.bmm a.data b.data⟩ := by
  have hc : (Tensor.cpu a).device = (Tensor.cpu b).device := rfl
  have hb : mps_bmm K a b = (torchBmm K a.cpu b.cpu).map fun r => r.to a.device := by
    simp [mps_bmm, h]
  rw [hb, torchBmm_same_device K a.cpu b.cpu hc]
  rfl

/-- The fallback branch of mps_mm. -/
lemma mps_mm_fallback (K : Kernel) (a b : Tensor)
    (h : _needs_cpu_fallback a.device [a, b] = true) :
    mps_mm K a b =
      .ok ⟨a.device, promoteDtype a.dtype b.dtype, K.mm a.data b.data⟩ := by
  have hc : (Tensor.cpu a).device = (Tensor.cpu b).device := rfl
  have hb : mps_mm K a b = (torchMm K a.cpu b.cpu).map fun r => r.to a.device := by
    simp [mps_mm, h]
  rw [hb, torchMm_same_device K a.cpu b.cpu hc]
  rfl

/-- Mapping Tensor.cpu over operands keeps the dtype list. -/
lemma map_dtype_cpu (ts : List Tensor) :
    (ts.map Tensor.cpu).map Tensor.dtype = ts.map Tensor.dtype := by
  rw [List.map_map]
  rfl

/-- Mapping Tensor.cpu over operands keeps the payload list. -/
lemma map_data_cpu (ts : List Tensor) :
    (ts.map Tensor.cpu).map Tensor.data = ts.map Tensor.data := by
  rw [List.map_map]
  rfl

/-- The fallback branch of mps_einsum. -/
lemma mps_einsum_fallback (K : Kernel) (equation : String) (o : Tensor)
    (rest : List Tensor) (h : _needs_cpu_fallback o.device (o :: rest) = true) :
    mps_einsum K equation (o :: rest) =
      .ok ⟨o.device, promoteList ((o :: rest).map Tensor.dtype),
           K.einsum equation ((o :: rest).map Tensor.data)⟩ := by
  have hmap : (o :: rest).map Tensor.cpu = o.cpu :: rest.map Tensor.cpu := rfl
  have hall : ∀ t ∈ rest.map Tensor.cpu, t.device = (Tensor.cpu o).device := by
    intro t ht
    rcases List.mem_map.mp ht with ⟨u, _, rfl⟩
    rfl
  have hnat := torchEinsum_same_device K equation o.cpu (rest.map Tensor.cpu) hall
  have hdl := map_dtype_cpu (o :: rest)
  have hvl := map_data_cpu (o :: rest)
  rw [hmap] at hdl hvl
  have hb : mps_einsum K equation (o :: rest) =
      (torchEinsum K equation ((o :: rest).map Tensor.cpu)).map fun r => r.to o.device := by
    simp [mps_einsum, h]
  rw [hb, hmap, hnat, hdl, hvl]
  rfl

/-- The native torch operations never raise a Python ValueError. -/
lemma torchMatmul_no_valueError (K : Kernel) (a b : Tensor) (msg : String) :
    torchMatmul K a b ≠ .error (.valueError msg) := by
  unfold torchMatmul
  split <;> simp

/-- torchBmm never raises a ValueError. -/
lemma torchBmm_no_valueError (K : Kernel) (a b : Tensor) (msg : String) :
    torchBmm K a b ≠ .error (.valueError msg) := by
  unfold torchBmm
  split <;> simp

/-- torchMm never raises a ValueError. -/
lemma torchMm_no_valueError (K : Kernel) (a b : Tensor) (msg : String) :
    torchMm K a b ≠ .error (.valueError msg) := by
  unfold torchMm
  split <;> simp

/-- torchEinsum never raises a ValueError. -/
lemma torchEinsum_no_valueError (K : Kernel) (equation : String)
    (ops : List Tensor) (msg : String) :
    torchEinsum K equation ops ≠ .error (.valueError msg) := by
  cases ops with
  | nil => simp [torchEinsum]
  | cons o rest =>
    simp only [torchEinsum]
    split <;> simp

/-- Except.map does not introduce errors. -/
lemma map_no_valueError {x : Except TorchErr Tensor} {f : Tensor → Tensor}
    (h : ∀ msg, x ≠ .error (.valueError msg)) (msg : String) :
    x.map f ≠ .error (.valueError msg) := by
  cases x with
  | ok v => simp [Except.map]
  | error e =>
    simp only [Except.map]
    intro hc
    exact h msg (by simpa using hc)

/-! Theorems. -/

/-- C3: the dispatch predicate returns true iff the device type is "mps" and
some tensor has dtype complex64 or complex128; moreover it is a function
only of the device type and the operand dtypes.  All four wrappers branch on
this predicate applied to the first operand's device (definitions above). -/
theorem needs_cpu_fallback_spec :
    (∀ (device : Device) (tensors : List Tensor),
      _needs_cpu_fallback device tensors = true ↔
        device.type = "mps" ∧
          ∃ t ∈ tensors, t.dtype = Dtype.complex64 ∨ t.dtype = Dtype.complex128) ∧
    (∀ (d d' : Device) (ts ts' : List Tensor), d.type = d'.type →
      ts.map Tensor.dtype = ts'.map Tensor.dtype →
      _needs_cpu_fallback d ts = _needs_cpu_fallback d' ts') :=
  ⟨needs_cpu_fallback_iff, needs_cpu_fallback_congr⟩

/-- C3 witness: the predicate fires on a concrete complex64 tensor on MPS. -/
theorem needs_cpu_fallback_spec_witness :
    _needs_cpu_fallback mpsDevice [tA] = true :=
  (needs_cpu_fallback_spec.1 mpsDevice [tA]).mpr
    ⟨rfl, tA, by decide, Or.inl rfl⟩

/-- C7 counterexample: complex32 is a complex dtype, yet on MPS a complex32
operand does not trigger the CPU fallback: the dispatch predicate is false,
so the wrappers take the native branch. -/
theorem complex32_not_rerouted :
    Dtype.isComplex Dtype.complex32 = true ∧
      _needs_cpu_fallback mpsDevice [tC32, tC32] = false := by
  decide

/-- C7 amended: on an MPS device, an operand of dtype complex64 or complex128
does trigger the CPU fallback. -/
theorem mps_complex64_128_rerouted :
    ∀ (d : Device) (ts : List Tensor), d.type = "mps" →
      (∃ t ∈ ts, t.dtype = Dtype.complex64 ∨ t.dtype = Dtype.complex128) →
      _needs_cpu_fallback d ts = true := by
  intro d ts hd hex
  exact (needs_cpu_fallback_iff d ts).mpr ⟨hd, hex⟩

/-- C7 witness: the amended statement at a concrete complex128 tensor. -/
theorem mps_complex64_128_rerouted_witness :
    _needs_cpu_fallback mpsDevice [⟨mpsDevice, Dtype.complex128, []⟩] = true :=
  mps_complex64_128_rerouted mpsDevice [⟨mpsDevice, Dtype.complex128, []⟩] rfl
    ⟨⟨mpsDevice, Dtype.complex128, []⟩, by decide, Or.inr rfl⟩

/-- C9: contract is the very function mps_einsum: same result, same errors,
on every kernel, equation and operand list. -/
theorem contract_eq_mps_einsum :
    ∀ (K : Kernel) (equation : String) (operands : List Tensor),
      contract K equation operands = mps_einsum K equation operands :=
  fun _ _ _ => rfl

/-- C1 counterexample: with the first operand a complex64 tensor on MPS and
the second on the CPU, mps_matmul takes the fallback, moves both operands to
the CPU and succeeds, while native matmul applied directly to the same
inputs raises a device-mismatch error: the wrapper is not a drop-in
replacement on every input. -/
theorem mps_matmul_not_dropin_mixed_devices :
    mps_matmul K0 tA tCpu ≠ torchMatmul K0 tA tCpu := by
  have hl : mps_matmul K0 tA tCpu =
      .ok ⟨mpsDevice, Dtype.complex64, [(1, 0), (2, 3)]⟩ := rfl
  have hr : torchMatmul K0 tA tCpu = .error .deviceMismatch := rfl
  rw [hl, hr]
  simp

/-- C1 amended: whenever all operands reside on a common device (the only
situation in which the native operation itself is defined), each of the four
wrappers returns exactly the native operation's result - value, dtype and
device - whichever branch is taken. -/
theorem wrappers_dropin_on_common_device :
    (∀ (K : Kernel) (a b : Tensor), a.device = b.device →
      mps_matmul K a b = torchMatmul K a b) ∧
    (∀ (K : Kernel) (a b : Tensor), a.device = b.device →
      mps_bmm K a b = torchBmm K a b) ∧
    (∀ (K : Kernel) (a b : Tensor), a.device = b.device →
      mps_mm K a b = torchMm K a b) ∧
    (∀ (K : Kernel) (equation : String) (o : Tensor) (rest : List Tensor),
      (∀ t ∈ rest, t.device = o.device) →
      mps_einsum K equation (o :: rest) = torchEinsum K equation (o :: rest)) := by
  refine ⟨?_, ?_, ?_, ?_⟩
  · intro K a b h
    cases hb : _needs_cpu_fallback a.device [a, b] with
    | false => simp [mps_matmul, hb]
    | true => rw [mps_matmul_fallback K a b hb, torchMatmul_same_device K a b h]
  · intro K a b h
    cases hb : _needs_cpu_fallback a.device [a, b] with
    | false => simp [mps_bmm, hb]
    | true => rw [mps_bmm_fallback K a b hb, torchBmm_same_device K a b h]
  · intro K a b h
    cases hb : _needs_cpu_fallback a.device [a, b] with
    | false => simp [mps_mm, hb]
    | true => rw [mps_mm_fallback K a b hb, torchMm_same_device K a b h]
  · intro K equation o rest h
    cases hb : _needs_cpu_fallback o.device (o :: rest) with
    | false => simp [mps_einsum, hb]
    | true =>
      rw [mps_einsum_fallback K equation o rest hb,
          torchEinsum_same_device K equation o rest h]

/-- C1 witness: the amended statement at two concrete complex64 tensors on
the MPS device (the fallback branch). -/
theorem wrappers_dropin_witness :
    mps_matmul K0 tA tB = torchMatmul K0 tA tB :=
  wrappers_dropin_on_common_device.1 K0 tA tB rfl

/-- C2: whenever the CPU fallback path is taken, each wrapper succeeds and
returns a tensor residing on the device of its first operand, not on the CPU
where the computation ran. -/
theorem fallback_returns_original_device :
    (∀ (K : Kernel) (a b : Tensor), _needs_cpu_fallback a.device [a, b] = true →
      ∃ r, mps_matmul K a b = .ok r ∧ r.device = a.device) ∧
    (∀ (K : Kernel) (a b : Tensor), _needs_cpu_fallback a.device [a, b] = true →
      ∃ r, mps_bmm K a b = .ok r ∧ r.device = a.device) ∧
    (∀ (K : Kernel) (a b : Tensor), _needs_cpu_fallback a.device [a, b] = true →
      ∃ r, mps_mm K a b = .ok r ∧ r.device = a.device) ∧
    (∀ (K : Kernel) (equation : String) (o : Tensor) (rest : List Tensor),
      _needs_cpu_fallback o.device (o :: rest) = true →
      ∃ r, mps_einsum K equation (o :: rest) = .ok r ∧ r.device = o.device) := by
  refine ⟨?_, ?_, ?_, ?_⟩
  · intro K a b h
    exact ⟨_, mps_matmul_fallback K a b h, rfl⟩
  · intro K a b h
    exact ⟨_, mps_bmm_fallback K a b h, rfl⟩
  · intro K a b h
    exact ⟨_, mps_mm_fallback K a b h, rfl⟩
  · intro K equation o rest h
    exact ⟨_, mps_einsum_fallback K equation o rest h, rfl⟩

/-- C2 witness: the fallback on two concrete MPS complex64 tensors returns a
tensor on the MPS device. -/
theorem fallback_returns_original_device_witness :
    ∃ r, mps_matmul K0 tA tB = .ok r ∧ r.device = tA.device :=
  fallback_returns_original_device.1 K0 tA tB (by decide)

/-- C4: mps_einsum raises a ValueError exactly on the empty operand list,
and none of the other three wrappers ever raises a ValueError: the module's
only input validation is that single check. -/
theorem single_input_validation :
    (∀ (K : Kernel) (equation : String) (operands : List Tensor),
      (∃ msg, mps_einsum K equation operands = .error (.valueError msg)) ↔
        operands = []) ∧
    (∀ (K : Kernel) (a b : Tensor) (msg : String),
      mps_matmul K a b ≠ .error (.valueError msg)) ∧
    (∀ (K : Kernel) (a b : Tensor) (msg : String),
      mps_bmm K a b ≠ .error (.valueError msg)) ∧
    (∀ (K : Kernel) (a b : Tensor) (msg : String),
      mps_mm K a b ≠ .error (.valueError msg)) := by
  refine ⟨?_, ?_, ?_, ?_⟩
  · intro K equation operands
    constructor
    · rintro ⟨msg, hmsg⟩
      cases operands with
      | nil => rfl
      | cons o rest =>
        exfalso
        revert hmsg
        cases hb : _needs_cpu_fallback o.device (o :: rest) with
        | false =>
          simp only [mps_einsum, hb, Bool.false_eq_true, if_false]
          exact torchEinsum_no_valueError K equation (o :: rest) msg
        | true =>
          simp only [mps_einsum, hb, if_true]
          exact map_no_valueError
            (torchEinsum_no_valueError K equation ((o :: rest).map Tensor.cpu)) msg
    · rintro rfl
      exact ⟨"No operands provided to mps_einsum", rfl⟩
  · intro K a b msg
    cases hb : _needs_cpu_fallback a.device [a, b] with
    | false =>
      simp only [mps_matmul, hb, Bool.false_eq_true, if_false]
      exact torchMatmul_no_valueError K a b msg
    | true =>
      simp only [mps_matmul, hb, if_true]
      exact map_no_valueError (torchMatmul_no_valueError K a.cpu b.cpu) msg
  · intro K a b msg
    cases hb : _needs_cpu_fallback a.device [a, b] with
    | false =>
      simp only [mps_bmm, hb, Bool.false_eq_true, if_false]
      exact torchBmm_no_valueError K a b msg
    | true =>
      simp only [mps_bmm, hb, if_true]
      exact map_no_valueError (torchBmm_no_valueError K a.cpu b.cpu) msg
  · intro K a b msg
    cases hb : _needs_cpu_fallback a.device [a, b] with
    | false =>
      simp only [mps_mm, hb, Bool.false_eq_true, if_false]
      exact torchMm_no_valueError K a b msg
    | true =>
      simp only [mps_mm, hb, if_true]
      exact map_no_valueError (torchMm_no_valueError K a.cpu b.cpu) msg

/-- C4 witness: the empty operand list raises the ValueError. -/
theorem single_input_validation_witness :
    ∃ msg, mps_einsum K0 "ij,jk" [] = .error (.valueError msg) :=
  (single_input_validation.1 K0 "ij,jk" []).mpr rfl

/-- C5: when the first operand's device type is not "mps", every wrapper is
the native operation applied to the given tensors: no operand is copied to
the CPU and no result is copied back. -/
theorem non_mps_runs_native :
    (∀ (K : Kernel) (a b : Tensor), a.device.type ≠ "mps" →
      mps_matmul K a b = torchMatmul K a b) ∧
    (∀ (K : Kernel) (a b : Tensor), a.device.type ≠ "mps" →
      mps_bmm K a b = torchBmm K a b) ∧
    (∀ (K : Kernel) (a b : Tensor), a.device.type ≠ "mps" →
      mps_mm K a b = torchMm K a b) ∧
    (∀ (K : Kernel) (equation : String) (o : Tensor) (rest : List Tensor),
      o.device.type ≠ "mps" →
      mps_einsum K equation (o :: rest) = torchEinsum K equation (o :: rest)) := by
  refine ⟨?_, ?_, ?_, ?_⟩
  · intro K a b h
    simp [mps_matmul, needs_cpu_fallback_false_of_not_mps a.device [a, b] h]
  · intro K a b h
    simp [mps_bmm, needs_cpu_fallback_false_of_not_mps a.device [a, b] h]
  · intro K a b h
    simp [mps_mm, needs_cpu_fallback_false_of_not_mps a.device [a, b] h]
  · intro K equation o rest h
    simp [mps_einsum, needs_cpu_fallback_false_of_not_mps o.device (o :: rest) h]

/-- C5 witness: a concrete CUDA tensor goes straight to the native branch. -/
theorem non_mps_runs_native_witness :
    mps_matmul K0 tCuda tCuda = torchMatmul K0 tCuda tCuda :=
  non_mps_runs_native.1 K0 tCuda tCuda (by decide)

/-- C6: on the fallback path, every operand - complex or not - is moved to
the CPU before the native operation is applied (first conjunct of each
pair), and precisely because all operands land on the CPU the native call
succeeds on their common device (second conjunct). -/
theorem fallback_moves_all_operands :
    (∀ (K : Kernel) (a b : Tensor), _needs_cpu_fallback a.device [a, b] = true →
      mps_matmul K a b = (torchMatmul K a.cpu b.cpu).map (fun r => r.to a.device) ∧
      mps_matmul K a b =
        .ok ⟨a.device, promoteDtype a.dtype b.dtype, K.matmul a.data b.data⟩) ∧
    (∀ (K : Kernel) (a b : Tensor), _needs_cpu_fallback a.device [a, b] = true →
      mps_bmm K a b = (torchBmm K a.cpu b.cpu).map (fun r => r.to a.device) ∧
      mps_bmm K a b =
        .ok ⟨a.device, promoteDtype a.dtype b.dtype, K.bmm a.data b.data⟩) ∧
    (∀ (K : Kernel) (a b : Tensor), _needs_cpu_fallback a.device [a, b] = true →
      mps_mm K a b = (torchMm K a.cpu b.cpu).map (fun r => r.to a.device) ∧
      mps_mm K a b =
        .ok ⟨a.device, promoteDtype a.dtype b.dtype, K.mm a.data b.data⟩) ∧
    (∀ (K : Kernel) (equation : String) (o : Tensor) (rest : List Tensor),
      _needs_cpu_fallback o.device (o :: rest) = true →
      mps_einsum K equation (o :: rest) =
        (torchEinsum K equation ((o :: rest).map Tensor.cpu)).map
          (fun r => r.to o.device) ∧
      mps_einsum K equation (o :: rest) =
        .ok ⟨o.device, promoteList ((o :: rest).map Tensor.dtype),
             K.einsum equation ((o :: rest).map Tensor.data)⟩) := by
  refine ⟨?_, ?_, ?_, ?_⟩
  · intro K a b h
    exact ⟨by simp [mps_matmul, h], mps_matmul_fallback K a b h⟩
  · intro K a b h
    exact ⟨by simp [mps_bmm, h], mps_bmm_fallback K a b h⟩
  · intro K a b h
    exact ⟨by simp [mps_mm, h], mps_mm_fallback K a b h⟩
  · intro K equation o rest h
    exact ⟨by simp [mps_einsum, h], mps_einsum_fallback K equation o rest h⟩

/-- C6 witness: at two concrete MPS complex64 tensors, both operands are
routed through the CPU and the result is the kernel output on MPS. -/
theorem fallback_moves_all_operands_witness :
    mps_matmul K0 tA tB =
      .ok ⟨tA.device, promoteDtype tA.dtype tB.dtype, K0.matmul tA.data tB.data⟩ :=
  (fallback_moves_all_operands.1 K0 tA tB (by decide)).2

/-- C8: the dispatch decision of every wrapper is a function of the first
operand's device and of the operand dtypes alone: the devices of the
remaining operands are never consulted.  The wrappers pass exactly the first
operand's device to the capability check (definitions above). -/
theorem dispatch_ignores_operand_devices :
    (∀ (a b a' b' : Tensor), a.device = a'.device → a.dtype = a'.dtype →
      b.dtype = b'.dtype →
      _needs_cpu_fallback a.device [a, b] = _needs_cpu_fallback a'.device [a', b']) ∧
    (∀ (o o' : Tensor) (rest rest' : List Tensor), o.device = o'.device →
      (o :: rest).map Tensor.dtype = (o' :: rest').map Tensor.dtype →
      _needs_cpu_fallback o.device (o :: rest) =
        _needs_cpu_fallback o'.device (o' :: rest')) := by
  constructor
  · intro a b a' b' hdev hda hdb
    exact needs_cpu_fallback_congr a.device a'.device [a, b] [a', b']
      (by rw [hdev]) (by simp [hda, hdb])
  · intro o o' rest rest' hdev hdt
    exact needs_cpu_fallback_congr o.device o'.device (o :: rest) (o' :: rest')
      (by rw [hdev]) hdt

/-- C8 witness: moving the second operand from MPS to the CPU does not
change the dispatch decision. -/
theorem dispatch_ignores_operand_devices_witness :
    _needs_cpu_fallback tA.device [tA, tB] = _needs_cpu_fallback tA.device [tA, tCpu] :=
  dispatch_ignores_operand_devices.1 tA tB tA tCpu rfl rfl rfl

/-! Store-passing model.  To state the frame property (claim C10) the torch
calls are replayed against an explicit store of tensor objects: a tensor is
an index into the store, operations read their operands from the store and
allocate their results at the end, and the moves cpu() and to(device)
return the argument itself when it already lives on the target device, as
torch does.  No operation ever writes an existing cell. -/

/-- A store of tensor objects; a tensor value is an index into it. -/
abbrev Store := List Tensor

/-- Allocate a fresh tensor at the end of the store. -/
def allocT (s : Store) (t : Tensor) : Store × Nat := (s ++ [t], s.length)

/-- Tensor.cpu() in the store model: the same object when it already lives
on the CPU, otherwise a freshly allocated moved copy. -/
def cpuS (s : Store) (i : Nat) : Store × Nat :=
  match s[i]? with
  | some t => if t.device = cpuDevice then (s, i) else allocT s t.cpu
  | none => (s, i)

/-- Tensor.to(device) in the store model. -/
def toS (s : Store) (i : Nat) (d : Device) : Store × Nat :=
  match s[i]? with
  | some t => if t.device = d then (s, i) else allocT s (t.to d)
  | none => (s, i)

/-- A native binary torch operation in the store model: read both operands,
require a common device, allocate the result. -/
def nativeBinopS (f : Val → Val → Val) (s : Store) (i j : Nat) :
    Store × Except TorchErr Nat :=
  match s[i]?, s[j]? with
  | some a, some b =>
    if a.device = b.device then
      let p := allocT s ⟨a.device, promoteDtype a.dtype b.dtype, f a.data b.data⟩
      (p.1, .ok p.2)
    else (s, .error .deviceMismatch)
  | _, _ => (s, .error .runtimeError)

/-- The common shape of mps_matmul, mps_bmm and mps_mm in the store model,
mirroring source lines 54-58, 99-103 and 119-123. -/
def mpsBinopS (f : Val → Val → Val) (s : Store) (i j : Nat) :
    Store × Except TorchErr Nat :=
  match s[i]?, s[j]? with
  | some a, some b =>
    if _needs_cpu_fallback a.device [a, b] then
      let p1 := cpuS s i
      let p2 := cpuS p1.1 j
      match nativeBinopS f p2.1 p1.2 p2.2 with
      | (s3, .ok r) =>
        let q := toS s3 r a.device
        (q.1, .ok q.2)
      | (s3, .error e) => (s3, .error e)
    else nativeBinopS f s i j
  | _, _ => (s, .error .runtimeError)

/-- mps_matmul in the store model. -/
def mps_matmulS (K : Kernel) : Store → Nat → Nat → Store × Except TorchErr Nat :=
  mpsBinopS K.matmul

/-- mps_bmm in the store model. -/
def mps_bmmS (K : Kernel) : Store → Nat → Nat → Store × Except TorchErr Nat :=
  mpsBinopS K.bmm

/-- mps_mm in the store model. -/
def mps_mmS (K : Kernel) : Store → Nat → Nat → Store × Except TorchErr Nat :=
  mpsBinopS K.mm

/-- Read a list of operand ids from the store. -/
def readAll (s : Store) (ids : List Nat) : Option (List Tensor) :=
  match ids with
  | [] => some []
  | i :: rest =>
    match s[i]?, readAll s rest with
    | some t, some ts => some (t :: ts)
    | _, _ => none

/-- The list comprehension of source line 79: move every operand to the CPU
in order. -/
def cpuListS (s : Store) (ids : List Nat) : Store × List Nat :=
  match ids with
  | [] => (s, [])
  | i :: rest =>
    let p := cpuS s i
    let q := cpuListS p.1 rest
    (q.1, p.2 :: q.2)

/-- Native torch.einsum in the store model. -/
def einsumS (K : Kernel) (equation : String) (s : Store) (ids : List Nat) :
    Store × Except TorchErr Nat :=
  match readAll s ids with
  | none => (s, .error .runtimeError)
  | some [] => (s, .error .runtimeError)
  | some (o :: rest) =>
    if rest.all fun t => decide (t.device = o.device) then
      let p := allocT s ⟨o.device, promoteList ((o :: rest).map Tensor.dtype),
                         K.einsum equation ((o :: rest).map Tensor.data)⟩
      (p.1, .ok p.2)
    else (s, .error .deviceMismatch)

/-- mps_einsum in the store model, mirroring source lines 74-83. -/
def mps_einsumS (K : Kernel) (equation : String) (s : Store) (ids : List Nat) :
    Store × Except TorchErr Nat :=
  match ids with
  | [] => (s, .error (.valueError "No operands provided to mps_einsum"))
  | _ :: _ =>
    match readAll s ids with
    | none => (s, .error .runtimeError)
    | some [] => (s, .error .runtimeError)
    | some (o :: ops) =>
      if _needs_cpu_fallback o.device (o :: ops) then
        let p := cpuListS s ids
        match einsumS K equation p.1 p.2 with
        | (s2, .ok r) =>
          let q := toS s2 r o.device
          (q.1, .ok q.2)
        | (s2, .error e) => (s2, .error e)
      else einsumS K equation s ids

/-- Reading below the end of a store is unchanged by appending. -/
lemma get_append_of_some (s ext : Store) (i : Nat) (t : Tensor)
    (h : s[i]? = some t) : (s ++ ext)[i]? = some t := by
  induction s generalizing i with
  | nil => simp at h
  | cons a as ih =>
    cases i with
    | zero => simpa using h
    | succ n => simpa using ih n (by simpa using h)

/-- The freshly appended cell is read back. -/
lemma get_concat_self (s : Store) (t : Tensor) :
    (s ++ [t])[s.length]? = some t := by
  induction s with
  | nil => rfl
  | cons a as ih => simp [ih]

/-- Moving a tensor already on the CPU is the identity. -/
lemma cpu_of_cpuDevice (t : Tensor) (h : t.device = cpuDevice) :
    Tensor.cpu t = t := by
  cases t
  simp_all [Tensor.cpu]

/-- cpuS only appends, and its result id reads back as the CPU copy. -/
lemma cpuS_spec (s : Store) (i : Nat) (t : Tensor) (h : s[i]? = some t) :
    ∃ ext i', cpuS s i = (s ++ ext, i') ∧ (s ++ ext)[i']? = some t.cpu := by
  unfold cpuS
  rw [h]
  by_cases hd : t.device = cpuDevice
  · exact ⟨[], i, by simp [hd], by simpa [cpu_of_cpuDevice t hd] using h⟩
  · exact ⟨[t.cpu], s.length, by simp [hd, allocT], get_concat_self s t.cpu⟩

/-- toS allocates when the target device differs. -/
lemma toS_alloc (s : Store) (i : Nat) (t : Tensor) (d : Device)
    (h : s[i]? = some t) (hne : ¬ t.device = d) :
    toS s i d = (s ++ [t.to d], s.length) := by
  unfold toS
  rw [h]
  simp [hne, allocT]

/-- The native binary op on two readable operands on a common device. -/
lemma nativeBinopS_ok (f : Val → Val → Val) (s : Store) (i j : Nat)
    (a b : Tensor) (ha : s[i]? = some a) (hb : s[j]? = some b)
    (hd : a.device = b.device) :
    nativeBinopS f s i j =
      (s ++ [⟨a.device, promoteDtype a.dtype b.dtype, f a.data b.data⟩],
       .ok s.length) := by
  unfold nativeBinopS
  rw [ha, hb]
  simp [hd, allocT]

/-- The native binary op only appends, and a successful result is fresh. -/
lemma nativeBinopS_frame (f : Val → Val → Val) (s : Store) (i j : Nat) :
    (∃ ext, (nativeBinopS f s i j).1 = s ++ ext) ∧
    (∀ r, (nativeBinopS f s i j).2 = .ok r → s.length ≤ r) := by
  cases hga : s[i]? with
  | none =>
    have hred : nativeBinopS f s i j = (s, .error .runtimeError) := by
      simp [nativeBinopS, hga]
    rw [hred]
    exact ⟨⟨[], by simp⟩, fun r hr => by simp at hr⟩
  | some a =>
    cases hgb : s[j]? with
    | none =>
      have hred : nativeBinopS f s i j = (s, .error .runtimeError) := by
        simp [nativeBinopS, hga, hgb]
      rw [hred]
      exact ⟨⟨[], by simp⟩, fun r hr => by simp at hr⟩
    | some b =>
      by_cases hd : a.device = b.device
      · rw [nativeBinopS_ok f s i j a b hga hgb hd]
        refine ⟨⟨[⟨a.device, promoteDtype a.dtype b.dtype, f a.data b.data⟩], rfl⟩, ?_⟩
        intro r hr
        simp at hr
        omega
      · have hred : nativeBinopS f s i j = (s, .error .deviceMismatch) := by
          simp [nativeBinopS, hga, hgb, hd]
        rw [hred]
        exact ⟨⟨[], by simp⟩, fun r hr => by simp at hr⟩

/-- The native binary op applied to two CPU copies. -/
lemma nativeBinopS_cpu_ok (f : Val → Val → Val) (s : Store) (i j : Nat)
    (a b : Tensor) (ha : s[i]? = some a.cpu) (hb : s[j]? = some b.cpu) :
    nativeBinopS f s i j =
      (s ++ [⟨cpuDevice, promoteDtype a.dtype b.dtype, f a.data b.data⟩],
       .ok s.length) :=
  nativeBinopS_ok f s i j a.cpu b.cpu ha hb rfl

/-- An MPS-typed device is not the CPU device. -/
lemma mps_ne_cpuDevice (d : Device) (h : d.type = "mps") : ¬ (cpuDevice = d) := by
  intro hc
  rw [← hc] at h
  exact absurd h (by decide)

/-- The fallback path of the store-model binary wrapper: the two CPU copies
and the CPU result are appended, the result is moved back to the first
operand's device as a fresh allocation, and nothing below the original
store length is touched. -/
lemma mpsBinopS_fallback_frame (f : Val → Val → Val) (s : Store) (i j : Nat)
    (a b : Tensor) (ha : s[i]? = some a) (hb : s[j]? = some b)
    (hp : _needs_cpu_fallback a.device [a, b] = true) :
    ∃ ext r, mpsBinopS f s i j = (s ++ ext, .ok r) ∧ s.length ≤ r := by
  have hmps : a.device.type = "mps" :=
    ((needs_cpu_fallback_iff a.device [a, b]).mp hp).1
  have hane : ¬ (cpuDevice = a.device) := mps_ne_cpuDevice a.device hmps
  obtain ⟨e1, i', h1, hi'⟩ := cpuS_spec s i a ha
  have hbj : (s ++ e1)[j]? = some b := get_append_of_some s e1 j b hb
  obtain ⟨e2, j', h2, hj'⟩ := cpuS_spec (s ++ e1) j b hbj
  have hi2 : (s ++ e1 ++ e2)[i']? = some a.cpu :=
    get_append_of_some (s ++ e1) e2 i' a.cpu hi'
  set resC : Tensor := ⟨cpuDevice, promoteDtype a.dtype b.dtype, f a.data b.data⟩ with hres
  have hnat := nativeBinopS_cpu_ok f (s ++ e1 ++ e2) i' j' a b hi2 hj'
  have htoS := toS_alloc (s ++ e1 ++ e2 ++ [resC]) (s ++ e1 ++ e2).length
      resC a.device (get_concat_self (s ++ e1 ++ e2) resC) hane
  refine ⟨e1 ++ e2 ++ [resC] ++ [resC.to a.device],
    (s ++ e1 ++ e2 ++ [resC]).length, ?_, ?_⟩
  · simp only [mpsBinopS, ha, hb, hp, eq_self_iff_true, if_true, h1, h2, hnat, htoS]
    simp [List.append_assoc]
  · simp [List.length_append]

/-- Frame property of the store-model binary wrappers, all paths. -/
lemma mpsBinopS_frame (f : Val → Val → Val) (s : Store) (i j : Nat) :
    (∃ ext, (mpsBinopS f s i j).1 = s ++ ext) ∧
    (∀ r, (mpsBinopS f s i j).2 = .ok r → s.length ≤ r) := by
  cases hga : s[i]? with
  | none =>
    have hred : mpsBinopS f s i j = (s, .error .runtimeError) := by
      simp [mpsBinopS, hga]
    rw [hred]
    exact ⟨⟨[], by simp⟩, fun r hr => by simp at hr⟩
  | some a =>
    cases hgb : s[j]? with
    | none =>
      have hred : mpsBinopS f s i j = (s, .error .runtimeError) := by
        simp [mpsBinopS, hga, hgb]
      rw [hred]
      exact ⟨⟨[], by simp⟩, fun r hr => by simp at hr⟩
    | some b =>
      cases hp : _needs_cpu_fallback a.device [a, b] with
      | false =>
        have hred : mpsBinopS f s i j = nativeBinopS f s i j := by
          simp [mpsBinopS, hga, hgb, hp]
        rw [hred]
        exact nativeBinopS_frame f s i j
      | true =>
        obtain ⟨ext, r, heq, hr⟩ := mpsBinopS_fallback_frame f s i j a b hga hgb hp
        rw [heq]
        refine ⟨⟨ext, rfl⟩, ?_⟩
        intro r' hr'
        simp at hr'
        omega

/-- readAll is unchanged by appending to the store. -/
lemma readAll_append (s ext : Store) (ids : List Nat) (ops : List Tensor)
    (h : readAll s ids = some ops) : readAll (s ++ ext) ids = some ops := by
  induction ids generalizing ops with
  | nil =>
    simp [readAll] at h
    simp [readAll, h]
  | cons i rest ih =>
    unfold readAll at h ⊢
    cases hg : s[i]? with
    | none => rw [hg] at h; simp at h
    | some t =>
      rw [hg] at h
      cases hra : readAll s rest with
      | none => rw [hra] at h; simp at h
      | some ts =>
        rw [hra] at h
        simp at h
        rw [get_append_of_some s ext i t hg, ih ts hra]
        simp [h]

/-- cpuListS only appends, and its result ids read back as the CPU copies
of the original operands, in order. -/
lemma cpuListS_spec (s : Store) (ids : List Nat) (ops : List Tensor)
    (h : readAll s ids = some ops) :
    ∃ ext ids', cpuListS s ids = (s ++ ext, ids') ∧
      readAll (s ++ ext) ids' = some (ops.map Tensor.cpu) := by
  induction ids generalizing s ops with
  | nil =>
    simp [readAll] at h
    subst h
    exact ⟨[], [], by simp [cpuListS], by simp [readAll]⟩
  | cons i rest ih =>
    unfold readAll at h
    cases hg : s[i]? with
    | none => rw [hg] at h; simp at h
    | some t =>
      rw [hg] at h
      cases hra : readAll s rest with
      | none => rw [hra] at h; simp at h
      | some ts =>
        rw [hra] at h
        simp at h
        obtain ⟨e1, i', h1, hi'⟩ := cpuS_spec s i t hg
        have hra1 : readAll (s ++ e1) rest = some ts := readAll_append s e1 rest ts hra
        obtain ⟨e2, rest', h2, hr2⟩ := ih (s ++ e1) ts hra1
        refine ⟨e1 ++ e2, i' :: rest', ?_, ?_⟩
        · unfold cpuListS
          rw [h1]
          dsimp only
          rw [h2]
          simp [List.append_assoc]
        · unfold readAll
          rw [← List.append_assoc]
          rw [get_append_of_some (s ++ e1) e2 i' t.cpu hi', hr2]
          simp [← h]

/-- Native einsum in the store model when all operands share the first
operand's device. -/
lemma einsumS_ok (K : Kernel) (equation : String) (s : Store) (ids : List Nat)
    (o : Tensor) (rest : List Tensor) (hra : readAll s ids = some (o :: rest))
    (hall : (rest.all fun t => decide (t.device = o.device)) = true) :
    einsumS K equation s ids =
      (s ++ [⟨o.device, promoteList ((o :: rest).map Tensor.dtype),
              K.einsum equation ((o :: rest).map Tensor.data)⟩],
       .ok s.length) := by
  unfold einsumS
  rw [hra]
  dsimp only
  rw [if_pos hall]
  simp [allocT]

/-- Native einsum in the store model only appends; success is fresh. -/
lemma einsumS_frame (K : Kernel) (equation : String) (s : Store) (ids : List Nat) :
    (∃ ext, (einsumS K equation s ids).1 = s ++ ext) ∧
    (∀ r, (einsumS K equation s ids).2 = .ok r → s.length ≤ r) := by
  cases hra : readAll s ids with
  | none =>
    have hred : einsumS K equation s ids = (s, .error .runtimeError) := by
      simp [einsumS, hra]
    rw [hred]
    exact ⟨⟨[], by simp⟩, fun r hr => by simp at hr⟩
  | some ops =>
    cases ops with
    | nil =>
      have hred : einsumS K equation s ids = (s, .error .runtimeError) := by
        simp [einsumS, hra]
      rw [hred]
      exact ⟨⟨[], by simp⟩, fun r hr => by simp at hr⟩
    | cons o rest =>
      cases hall : rest.all fun t => decide (t.device = o.device) with
      | true =>
        rw [einsumS_ok K equation s ids o rest hra hall]
        refine ⟨⟨[⟨o.device, promoteList ((o :: rest).map Tensor.dtype),
          K.einsum equation ((o :: rest).map Tensor.data)⟩], rfl⟩, ?_⟩
        intro r hr
        simp at hr
        omega
      | false =>
        have hred : einsumS K equation s ids = (s, .error .deviceMismatch) := by
          unfold einsumS
          rw [hra]
          dsimp only
          rw [if_neg (by simp [hall])]
        rw [hred]
        exact ⟨⟨[], by simp⟩, fun r hr => by simp at hr⟩

/-- The fallback path of the store-model einsum wrapper: the CPU copies of
all operands and the CPU result are appended, and the result is moved back
to the first operand's device as a fresh allocation. -/
lemma mps_einsumS_fallback_frame (K : Kernel) (equation : String) (s : Store)
    (i0 : Nat) (rids : List Nat) (o : Tensor) (ops : List Tensor)
    (hra : readAll s (i0 :: rids) = some (o :: ops))
    (hp : _needs_cpu_fallback o.device (o :: ops) = true) :
    ∃ ext r, mps_einsumS K equation s (i0 :: rids) = (s ++ ext, .ok r) ∧
      s.length ≤ r := by
  have hmps : o.device.type = "mps" :=
    ((needs_cpu_fallback_iff o.device (o :: ops)).mp hp).1
  have hane : ¬ (cpuDevice = o.device) := mps_ne_cpuDevice o.device hmps
  obtain ⟨e1, ids', h1, hr1⟩ := cpuListS_spec s (i0 :: rids) (o :: ops) hra
  rw [List.map_cons] at hr1
  have hall : ((ops.map Tensor.cpu).all
      fun t => decide (t.device = (Tensor.cpu o).device)) = true := by
    rw [List.all_eq_true]
    intro t ht
    rcases List.mem_map.mp ht with ⟨u, _, rfl⟩
    simp [Tensor.cpu]
  have hnat := einsumS_ok K equation (s ++ e1) ids' o.cpu (ops.map Tensor.cpu) hr1 hall
  set resE : Tensor := ⟨(Tensor.cpu o).device,
      promoteList ((o.cpu :: ops.map Tensor.cpu).map Tensor.dtype),
      K.einsum equation ((o.cpu :: ops.map Tensor.cpu).map Tensor.data)⟩ with hres
  have hne : ¬ resE.device = o.device := by
    rw [hres]
    exact hane
  have htoS := toS_alloc (s ++ e1 ++ [resE]) (s ++ e1).length resE o.device
      (get_concat_self (s ++ e1) resE) hne
  refine ⟨e1 ++ [resE] ++ [resE.to o.device], (s ++ e1 ++ [resE]).length, ?_, ?_⟩
  · simp only [mps_einsumS, hra, hp, eq_self_iff_true, if_true, h1, hnat, htoS]
    simp [List.append_assoc]
  · simp [List.length_append]

/-- Frame property of the store-model einsum wrapper, all paths. -/
lemma mps_einsumS_frame (K : Kernel) (equation : String) (s : Store)
    (ids : List Nat) :
    (∃ ext, (mps_einsumS K equation s ids).1 = s ++ ext) ∧
    (∀ r, (mps_einsumS K equation s ids).2 = .ok r → s.length ≤ r) := by
  cases ids with
  | nil =>
    exact ⟨⟨[], by simp [mps_einsumS]⟩, fun r hr => by simp [mps_einsumS] at hr⟩
  | cons i0 rids =>
    cases hra : readAll s (i0 :: rids) with
    | none =>
      have hred : mps_einsumS K equation s (i0 :: rids) =
          (s, .error .runtimeError) := by
        simp [mps_einsumS, hra]
      rw [hred]
      exact ⟨⟨[], by simp⟩, fun r hr => by simp at hr⟩
    | some ops =>
      cases ops with
      | nil =>
        have hred : mps_einsumS K equation s (i0 :: rids) =
            (s, .error .runtimeError) := by
          simp [mps_einsumS, hra]
        rw [hred]
        exact ⟨⟨[], by simp⟩, fun r hr => by simp at hr⟩
      | cons o ops =>
        cases hp : _needs_cpu_fallback o.device (o :: ops) with
        | false =>
          have hred : mps_einsumS K equation s (i0 :: rids) =
              einsumS K equation s (i0 :: rids) := by
            simp [mps_einsumS, hra, hp]
          rw [hred]
          exact einsumS_frame K equation s (i0 :: rids)
        | true =>
          obtain ⟨ext, r, heq, hr⟩ :=
            mps_einsumS_fallback_frame K equation s i0 rids o ops hra hp
          rw [heq]
          refine ⟨⟨ext, rfl⟩, ?_⟩
          intro r' hr'
          simp at hr'
          omega

/-- C10: no wrapper mutates its inputs.  In the store model every call
leaves each pre-existing tensor object untouched - the final store is the
initial store with new cells appended - so every input tensor holds the
same device, dtype and values after the call as before it; and a
successfully returned tensor is freshly allocated, its id lying beyond the
initial store. -/
theorem wrappers_no_mutation :
    (∀ (K : Kernel) (s : Store) (i j : Nat),
      (∃ ext, (mps_matmulS K s i j).1 = s ++ ext) ∧
      (∀ r, (mps_matmulS K s i j).2 = .ok r → s.length ≤ r)) ∧
    (∀ (K : Kernel) (s : Store) (i j : Nat),
      (∃ ext, (mps_bmmS K s i j).1 = s ++ ext) ∧
      (∀ r, (mps_bmmS K s i j).2 = .ok r → s.length ≤ r)) ∧
    (∀ (K : Kernel) (s : Store) (i j : Nat),
      (∃ ext, (mps_mmS K s i j).1 = s ++ ext) ∧
      (∀ r, (mps_mmS K s i j).2 = .ok r → s.length ≤ r)) ∧
    (∀ (K : Kernel) (equation : String) (s : Store) (ids : List Nat),
      (∃ ext, (mps_einsumS K equation s ids).1 = s ++ ext) ∧
      (∀ r, (mps_einsumS K equation s ids).2 = .ok r → s.length ≤ r)) :=
  ⟨fun K s i j => mpsBinopS_frame K.matmul s i j,
   fun K s i j => mpsBinopS_frame K.bmm s i j,
   fun K s i j => mpsBinopS_frame K.mm s i j,
   fun K equation s ids => mps_einsumS_frame K equation s ids⟩

/-- C10 witness: a concrete fallback call on a two-tensor store appends the
two CPU copies, the CPU result and the moved-back result, and returns the
fresh id 5. -/
theorem wrappers_no_mutation_witness :
    (∃ ext, (mps_matmulS K0 [tA, tB] 0 1).1 = [tA, tB] ++ ext) ∧
      ([tA, tB] : Store).length ≤ 5 :=
  ⟨(wrappers_no_mutation.1 K0 [tA, tB] 0 1).1,
   (wrappers_no_mutation.1 K0 [tA, tB] 0 1).2 5 rfl⟩
